import Mathlib

/-!
# Verification of the OpenExecution provenance core

Shallow embedding of the tamper-evident event-ledger logic of the
repository: the canonical JSON serializer, the SHA-256 hash function the
code calls (Node's `crypto.createHash('sha256')`, re-implemented here
executably so hashes of concrete inputs can be evaluated by the kernel),
the `Chain` and `CertIssuer` classes, the exporter's chain-integrity
check, and the standalone `verify.js` script that the demo emits.

JavaScript numbers appearing in payloads are modelled as integers (every
number in the repository's payloads is integral); timestamps produced by
`new Date().toISOString()` are passed in explicitly as strings, which is
the standard shallow embedding of a clock.
-/

namespace OpenExec

/-! ## SHA-256 (the `sha256` helper of the source, over Node's crypto)

All arithmetic is on `Nat` with explicit reduction modulo `2^32`, so every
definition is executable and kernel-reducible. -/

/-- Right rotation of a 32-bit word. -/
def rotr (x n : Nat) : Nat := ((x >>> n) ||| (x <<< (32 - n))) % 4294967296

def shaCh (x y z : Nat) : Nat := (x &&& y) ^^^ ((x ^^^ 4294967295) &&& z)

def shaMaj (x y z : Nat) : Nat := (x &&& y) ^^^ (x &&& z) ^^^ (y &&& z)

def bigSigma0 (x : Nat) : Nat := rotr x 2 ^^^ rotr x 13 ^^^ rotr x 22

def bigSigma1 (x : Nat) : Nat := rotr x 6 ^^^ rotr x 11 ^^^ rotr x 25

def smallSigma0 (x : Nat) : Nat := rotr x 7 ^^^ rotr x 18 ^^^ (x >>> 3)

def smallSigma1 (x : Nat) : Nat := rotr x 17 ^^^ rotr x 19 ^^^ (x >>> 10)

/-- The 64 SHA-256 round constants (FIPS 180-4), written in decimal. -/
def sha256K : List Nat :=
  [1116352408, 1899447441, 3049323471, 3921009573, 961987163, 1508970993,
   2453635748, 2870763221, 3624381080, 310598401, 607225278, 1426881987,
   1925078388, 2162078206, 2614888103, 3248222580, 3835390401, 4022224774,
   264347078, 604807628, 770255983, 1249150122, 1555081692, 1996064986,
   2554220882, 2821834349, 2952996808, 3210313671, 3336571891, 3584528711,
   113926993, 338241895, 666307205, 773529912, 1294757372, 1396182291,
   1695183700, 1986661051, 2177026350, 2456956037, 2730485921, 2820302411,
   3259730800, 3345764771, 3516065817, 3600352804, 4094571909, 275423344,
   430227734, 506948616, 659060556, 883997877, 958139571, 1322822218,
   1537002063, 1747873779, 1955562222, 2024104815, 2227730452, 2361852424,
   2428436474, 2756734187, 3204031479, 3329325298]

/-- Initial SHA-256 hash state (FIPS 180-4), written in decimal. -/
def sha256H0 : List Nat :=
  [1779033703, 3144134277, 1013904242, 2773480762, 1359893119, 2600822924,
   528734635, 1541459225]

/-- SHA-256 padding: append `0x80`, zero bytes, and the 64-bit bit length. -/
def sha256Pad (msg : List Nat) : List Nat :=
  let len := msg.length
  let bitLen := len * 8
  let k := (119 - len % 64) % 64
  msg ++ [0x80] ++ List.replicate k 0 ++
    [(bitLen >>> 56) % 256, (bitLen >>> 48) % 256, (bitLen >>> 40) % 256, (bitLen >>> 32) % 256,
     (bitLen >>> 24) % 256, (bitLen >>> 16) % 256, (bitLen >>> 8) % 256, bitLen % 256]

/-- Group bytes into big-endian 32-bit words (input length a multiple of 4). -/
def bytesToWords : List Nat → List Nat
  | a :: b :: c :: d :: rest => (((a * 256 + b) * 256 + c) * 256 + d) :: bytesToWords rest
  | _ => []

/-- Split a word list into 16-word blocks (fuel-driven so it is structural). -/
def wordsToBlocks : Nat → List Nat → List (List Nat)
  | 0, _ => []
  | _, [] => []
  | fuel + 1, ws => ws.take 16 :: wordsToBlocks fuel (ws.drop 16)

/-- Extend a sliding 16-word window by `n` message-schedule words. -/
def extendSchedule : List Nat → Nat → List Nat
  | _, 0 => []
  | win, n + 1 =>
    let w16 := win.getD 0 0
    let w15 := win.getD 1 0
    let w7 := win.getD 9 0
    let w2 := win.getD 14 0
    let nw := (w16 + smallSigma0 w15 + w7 + smallSigma1 w2) % 4294967296
    nw :: extendSchedule (win.drop 1 ++ [nw]) n

/-- The 64 compression rounds over an 8-word working state. -/
def sha256Rounds :
    List Nat → List Nat → Nat × Nat × Nat × Nat × Nat × Nat × Nat × Nat →
      Nat × Nat × Nat × Nat × Nat × Nat × Nat × Nat
  | w :: ws, k :: ks, (a, b, c, d, e, f, g, h) =>
    let t1 := (h + bigSigma1 e + shaCh e f g + k + w) % 4294967296
    let t2 := (bigSigma0 a + shaMaj a b c) % 4294967296
    sha256Rounds ws ks ((t1 + t2) % 4294967296, a, b, c, (d + t1) % 4294967296, e, f, g)
  | _, _, st => st

/-- Process one 16-word block, updating the 8-word hash state. -/
def sha256Block (h : List Nat) (block : List Nat) : List Nat :=
  let w := block ++ extendSchedule block 48
  match h with
  | [h0, h1, h2, h3, h4, h5, h6, h7] =>
    let (a, b, c, d, e, f, g, hh) := sha256Rounds w sha256K (h0, h1, h2, h3, h4, h5, h6, h7)
    [(h0 + a) % 4294967296, (h1 + b) % 4294967296, (h2 + c) % 4294967296, (h3 + d) % 4294967296,
     (h4 + e) % 4294967296, (h5 + f) % 4294967296, (h6 + g) % 4294967296, (h7 + hh) % 4294967296]
  | _ => []

/-- SHA-256 of a byte list, as the 8-word digest. -/
def sha256Words (msg : List Nat) : List Nat :=
  let ws := bytesToWords (sha256Pad msg)
  (wordsToBlocks (ws.length + 1) ws).foldl sha256Block sha256H0

def hexDigit (n : Nat) : Char := if n < 10 then Char.ofNat (48 + n) else Char.ofNat (87 + n)

/-- Lower-case hex rendering of a 32-bit word. -/
def wordHex (w : Nat) : String :=
  String.mk [hexDigit ((w >>> 28) &&& 15), hexDigit ((w >>> 24) &&& 15),
             hexDigit ((w >>> 20) &&& 15), hexDigit ((w >>> 16) &&& 15),
             hexDigit ((w >>> 12) &&& 15), hexDigit ((w >>> 8) &&& 15),
             hexDigit ((w >>> 4) &&& 15), hexDigit (w &&& 15)]

/-- UTF-8 encoding of a character, as Node's `Buffer.from(str)` produces. -/
def utf8Char (c : Char) : List Nat :=
  let n := c.toNat
  if n < 128 then [n]
  else if n < 2048 then [192 + n / 64, 128 + n % 64]
  else if n < 65536 then [224 + n / 4096, 128 + (n / 64) % 64, 128 + n % 64]
  else [240 + n / 262144, 128 + (n / 4096) % 64, 128 + (n / 64) % 64, 128 + n % 64]

def utf8Bytes (s : String) : List Nat := (s.data.map utf8Char).flatten

/-- `sha256(data)` of the source: hex digest of the UTF-8 bytes.
Source: `function sha256(data) { return crypto.createHash('sha256').update(data).digest('hex'); }` -/
def sha256Hex (s : String) : String := String.join ((sha256Words (utf8Bytes s)).map wordHex)

/-! ## JSON-like values and the canonical serializer

The serializer of the source (identical in part_002 and run-demo-v2.js):

```js
function canonicalize(obj) {
  if (obj === null || typeof obj !== 'object') return JSON.stringify(obj);
  if (Array.isArray(obj)) return '[' + obj.map(canonicalize).join(',') + ']';
  return '{' + Object.keys(obj).sort().map(k =>
    JSON.stringify(k) + ':' + canonicalize(obj[k])).join(',') + '}';
}
```

Objects are modelled as association lists in insertion order; `Object.keys`
of a JavaScript object yields each key once, so the lists that stand for
real JavaScript objects have pairwise-distinct keys (the `Nodup`
hypotheses below). Numbers are modelled as integers. -/

inductive Json where
  | null : Json
  | bool : Bool → Json
  | num : Int → Json
  | str : String → Json
  | arr : List Json → Json
  | obj : List (String × Json) → Json
deriving Inhabited

mutual

/-- A computable structural size for `Json`, used as recursion fuel for the
serializer. -/
def jsonSize : Json → Nat
  | .null => 1
  | .bool _ => 1
  | .num _ => 1
  | .str _ => 1
  | .arr xs => jsonSizeL xs + 1
  | .obj l => jsonSizeP l + 1

def jsonSizeL : List Json → Nat
  | [] => 1
  | x :: xs => jsonSize x + jsonSizeL xs + 1

def jsonSizeP : List (String × Json) → Nat
  | [] => 1
  | kv :: l => jsonSize kv.2 + jsonSizeP l + 2

end

/-- One character of `JSON.stringify`'s string escaping. -/
def jsonEscChar (c : Char) : String :=
  if c = '"' then "\\\""
  else if c = '\\' then "\\\\"
  else if c = '\x08' then "\\b"
  else if c = '\x09' then "\\t"
  else if c = '\x0a' then "\\n"
  else if c = '\x0c' then "\\f"
  else if c = '\x0d' then "\\r"
  else if c.toNat < 32 then
    "\\u00" ++ String.mk [hexDigit (c.toNat / 16), hexDigit (c.toNat % 16)]
  else String.singleton c

/-- `JSON.stringify` of a string: quoted, with escapes. -/
def jsonStr (s : String) : String := "\"" ++ String.join (s.data.map jsonEscChar) ++ "\""

/-- Lexicographic `≤` on character lists by code point, as a structural
boolean function (kernel-reducible, unlike `String.ltb`). This is the
comparison JavaScript's default `Array.prototype.sort` applies to the key
strings. -/
def lexLe : List Char → List Char → Bool
  | [], _ => true
  | _ :: _, [] => false
  | a :: as, b :: bs =>
    if a.toNat < b.toNat then true
    else if b.toNat < a.toNat then false
    else lexLe as bs

def keyLe (a b : String) : Bool := lexLe a.data b.data

/-- The ordering relation used to sort object keys. -/
def KeyLe (a b : String) : Prop := keyLe a b = true

instance : DecidableRel KeyLe := fun a b => by unfold KeyLe; infer_instance

/-- `Object.keys(obj).sort()`: the keys, sorted lexicographically. -/
def sortKeys (keys : List String) : List String := List.insertionSort KeyLe keys

/-- `obj[k]`: the value stored under key `k` (a JavaScript object holds each
key once; on a list without the key this yields `null`, where JS would give
`undefined`). -/
def lookupJ (k : String) (l : List (String × Json)) : Json :=
  match l with
  | [] => .null
  | (k', v) :: rest => if k' = k then v else lookupJ k rest

/-- Fuel-driven evaluator for `canonicalize`, so that the definition is
structurally recursive and kernel-reducible. `canonAux` agrees with the
source's recursion whenever the fuel is at least `jsonSize` of the value
(`canonAux_fuel` below); `canonicalize` supplies that fuel. -/
def canonAux : Nat → Json → String
  | 0, _ => ""
  | fuel + 1, j =>
    match j with
    | .null => "null"
    | .bool true => "true"
    | .bool false => "false"
    | .num n => toString n
    | .str s => jsonStr s
    | .arr xs => "[" ++ String.intercalate "," (xs.map (canonAux fuel)) ++ "]"
    | .obj l =>
      "\x7b" ++ String.intercalate ","
        ((sortKeys (l.map Prod.fst)).map (fun k => jsonStr k ++ ":" ++ canonAux fuel (lookupJ k l)))
        ++ "\x7d"

/-- `canonicalize(obj)` of the source. -/
def canonicalize (j : Json) : String := canonAux (jsonSize j) j

/-! ## The hash chain (`class Chain` of part_002) -/

/-- `const GENESIS = '0'.repeat(64);` -/
def GENESIS : String := String.mk (List.replicate 64 '0')

/-- The `options` argument of `Chain.append`: an authorization/liability
flag plus an optional owner identifier. -/
structure AppendOpts where
  authorization : Bool := false
  ownerId : Option String := none

/-- An event record as `Chain.append` stores it. The spread
`...(opts.authorization ? { authorization_event: true, owner_user_id: ... } : {})`
is modelled by `authorization_event`/`owner_user_id`, with
`owner_user_id = none` exactly when the two properties are absent. -/
structure Event where
  sequence : Nat
  event_type : String
  agent_name : String
  organization : String
  timestamp : String
  payload : Json
  event_hash : String
  prev_hash : String
  authorization_event : Bool
  owner_user_id : Option String

/-- The record whose canonicalization `append` hashes:
`{ seq, event_type: type, agent_name: agent, timestamp: ts, payload, prev_hash: prev }`
(insertion order as in the source; `canonicalize` sorts the keys). -/
def appendHashRecord (seq : Nat) (type agent ts : String) (payload : Json) (prev : String) : Json :=
  .obj [("seq", .num seq), ("event_type", .str type), ("agent_name", .str agent),
        ("timestamp", .str ts), ("payload", payload), ("prev_hash", .str prev)]

/-- Chain state: `constructor(id) { this.id = id; this.events = []; this.status = 'active'; this.chainHash = null; }` -/
structure Chain where
  id : String
  events : List Event
  status : String
  chainHash : Option String

def Chain.new (id : String) : Chain :=
  { id := id, events := [], status := "active", chainHash := none }

/-- `opts.ownerId || 'owner-1'` — JavaScript `||` takes the default when
`ownerId` is absent or the empty string. -/
def ownerIdOrDefault (o : Option String) : String :=
  match o with
  | some s => if s = "" then "owner-1" else s
  | none => "owner-1"

/-- The `prev` computation of `append`:
`const prev = seq === 1 ? GENESIS : this.events[seq - 2].event_hash;`
with `seq = this.events.length + 1`. When the chain is non-empty this
reads the last event; the `""`-default branch is unreachable (JavaScript
would throw there). -/
def appendPrev (c : Chain) : String :=
  if c.events.length + 1 = 1 then GENESIS else
    match c.events.get? (c.events.length + 1 - 2) with
    | some e => e.event_hash
    | none => ""

/-- `Chain.append(type, agent, org, payload, opts)`. The timestamp
`new Date().toISOString()` is passed in as `ts`. Returns the updated chain
and the stored event. The source performs no status check and has no
failure path; the observer call `push(...)` is an external side effect that
does not touch chain state. -/
def Chain.append (c : Chain) (type agent org : String) (payload : Json)
    (opts : AppendOpts) (ts : String) : Chain × Event :=
  let seq := c.events.length + 1
  let prev := appendPrev c
  let hash := sha256Hex (canonicalize (appendHashRecord seq type agent ts payload prev))
  let ev : Event :=
    { sequence := seq, event_type := type, agent_name := agent, organization := org,
      timestamp := ts, payload := payload, event_hash := hash, prev_hash := prev,
      authorization_event := opts.authorization,
      owner_user_id := if opts.authorization then some (ownerIdOrDefault opts.ownerId) else none }
  ({ c with events := c.events ++ [ev] }, ev)

/-- `Chain.resolve()`:
`this.chainHash = sha256(this.events.map(e => e.event_hash).join(':'));
 this.status = 'resolved'; return this.chainHash;` -/
def Chain.resolve (c : Chain) : Chain × String :=
  let h := sha256Hex (String.intercalate ":" (c.events.map (·.event_hash)))
  ({ c with chainHash := some h, status := "resolved" }, h)

/-- One `append` call's arguments, for building a chain from a script of
appends. -/
structure AppendArgs where
  type : String
  agent : String
  org : String
  payload : Json
  opts : AppendOpts
  ts : String

/-- A chain built by a sequence of `append` calls on a fresh chain. -/
def buildChain (id : String) (ops : List AppendArgs) : Chain :=
  ops.foldl (fun c op => (c.append op.type op.agent op.org op.payload op.opts op.ts).1)
    (Chain.new id)

/-- The event serialized as the JSON object `append` stored — all fields in
insertion order, with the authorization pair present exactly when the
option was set. -/
def eventJson (e : Event) : Json :=
  .obj ([("sequence", .num e.sequence), ("event_type", .str e.event_type),
         ("agent_name", .str e.agent_name), ("organization", .str e.organization),
         ("timestamp", .str e.timestamp), ("payload", e.payload),
         ("event_hash", .str e.event_hash), ("prev_hash", .str e.prev_hash)] ++
        (if e.authorization_event then
          [("authorization_event", .bool true),
           ("owner_user_id", .str (e.owner_user_id.getD "owner-1"))]
         else []))

/-- The event's fields with `event_hash` removed — the record the claimed
invariant `event_hash = H(canonical(event fields excluding event_hash))`
hashes. -/
def eventJsonSansHash (e : Event) : Json :=
  .obj ([("sequence", .num e.sequence), ("event_type", .str e.event_type),
         ("agent_name", .str e.agent_name), ("organization", .str e.organization),
         ("timestamp", .str e.timestamp), ("payload", e.payload),
         ("prev_hash", .str e.prev_hash)] ++
        (if e.authorization_event then
          [("authorization_event", .bool true),
           ("owner_user_id", .str (e.owner_user_id.getD "owner-1"))]
         else []))

/-! ## The certificate issuer (`class CertIssuer` of part_002)

The Ed25519 primitives live in Node's `crypto` module, outside this
repository; they are passed in as an explicit implementation record `Ed`.
Key objects and exported DER/SPKI hex keys are modelled as strings. The
constructor's `generateKeyPairSync` output is the issuer's `pub`/`priv`
pair together with its hex export `pubHex`. -/

structure Ed where
  sign : String → String → String
  verify : String → String → String → Bool

structure CertIssuer where
  pub : String
  priv : String
  pubHex : String

structure Certificate where
  version : String
  chain_id : String
  chain_hash : Option String
  event_count : Nat
  issued_at : String
  issuer : String
  algorithm : String
  signature : String
  public_key : String

/-- `chain.chainHash` as a JSON value (`null` before resolve). -/
def optStrJson : Option String → Json
  | some h => .str h
  | none => .null

/-- The `data` object `issue` builds and signs, in source insertion order. -/
def issueData (chain : Chain) (ts : String) : List (String × Json) :=
  [("version", .str "1.0"), ("chain_id", .str chain.id),
   ("chain_hash", optStrJson chain.chainHash), ("event_count", .num chain.events.length),
   ("issued_at", .str ts), ("issuer", .str "OpenExecution Sovereign"),
   ("algorithm", .str "Ed25519")]

/-- `CertIssuer.issue(chain)`: builds the certificate data, signs its
canonicalization with the private key, and returns data plus signature and
exported public key. The source performs no check of `chain.status`.
`issued_at = new Date().toISOString()` is passed in as `ts`. -/
def CertIssuer.issue (ed : Ed) (iss : CertIssuer) (chain : Chain) (ts : String) : Certificate :=
  let sig := ed.sign iss.priv (canonicalize (.obj (issueData chain ts)))
  { version := "1.0", chain_id := chain.id, chain_hash := chain.chainHash,
    event_count := chain.events.length, issued_at := ts,
    issuer := "OpenExecution Sovereign", algorithm := "Ed25519",
    signature := sig, public_key := iss.pubHex }

/-- `const { signature, public_key, ...data } = cert;` — the certificate's
fields with `signature` and `public_key` stripped, in field order. -/
def certDataOf (cert : Certificate) : List (String × Json) :=
  [("version", .str cert.version), ("chain_id", .str cert.chain_id),
   ("chain_hash", optStrJson cert.chain_hash), ("event_count", .num cert.event_count),
   ("issued_at", .str cert.issued_at), ("issuer", .str cert.issuer),
   ("algorithm", .str cert.algorithm)]

/-- `CertIssuer.verify(cert)`:
`const { signature, public_key, ...data } = cert;
 return crypto.verify(null, Buffer.from(canonicalize(data)), this.pub, Buffer.from(signature, 'hex'));`
Note the source verifies against `this.pub`, the verifying issuer's own
key object — not against `cert.public_key`. -/
def CertIssuer.verify (ed : Ed) (iss : CertIssuer) (cert : Certificate) : Bool :=
  ed.verify iss.pub (canonicalize (.obj (certDataOf cert))) cert.signature

/-! ## The standalone verifier (`verify.js`, emitted as a template string
in part_002)

The script loads the exported chain artifact
`{chain_id, status, chain_hash, event_count, events: chain.events}`, the
certificate, and the public-key artifact, then:

1. walks `chain.events` comparing each `prev_hash` with `GENESIS` resp. the
   previous `event_hash`, AND-ing the result into `chainOk`;
2. recomputes `sha256(event hashes joined with ':')` and compares it with
   `cert.chain_hash`, printing `VALID`/`MISMATCH` inline;
3. checks the Ed25519 signature over `canonicalize` of the certificate
   minus `signature`/`public_key`, against the key decoded from the
   public-key artifact, into `sigValid`;

and finally prints `chainOk && sigValid ? 'ALL CHECKS PASSED' : 'VERIFICATION FAILED'`
— the chain-hash comparison of step 2 is not part of the final verdict,
and the script never sets a nonzero exit code. `edVerify` stands for
`crypto.verify` composed with `createPublicKey` on the artifact's hex key. -/

structure VerifyOutput where
  chainOk : Bool
  hashMatch : Bool
  sigValid : Bool
  allChecksPassed : Bool

/-- The artifact exported for the script: `events: chain.events`. -/
structure ChainArtifact where
  chain_id : String
  status : String
  chain_hash : Option String
  event_count : Nat
  events : List Event

/-- The script's linkage loop: `expectedPrev = i === 0 ? GENESIS : events[i-1].event_hash;
if (e.prev_hash !== expectedPrev) chainOk = false;`. -/
def scriptChainOk : String → List Event → Bool
  | _, [] => true
  | expectedPrev, e :: rest => (e.prev_hash == expectedPrev) && scriptChainOk e.event_hash rest

/-- One run of the emitted `verify.js` on the three artifacts. -/
def verifyScriptRun (edVerify : String → String → String → Bool)
    (art : ChainArtifact) (cert : Certificate) (pubKeyHex : String) : VerifyOutput :=
  let chainOk := scriptChainOk GENESIS art.events
  let computed := sha256Hex (String.intercalate ":" (art.events.map (·.event_hash)))
  let hashMatch := match cert.chain_hash with
    | some h => computed == h
    | none => false
  let sigValid := edVerify pubKeyHex (canonicalize (.obj (certDataOf cert))) cert.signature
  { chainOk := chainOk, hashMatch := hashMatch, sigValid := sigValid,
    allChecksPassed := chainOk && sigValid }

/-! ## The exporter's chain-integrity check (part_002, `integrityResults`)

The export script reads chains and events from the v2 database and writes
`chain-integrity.json`. Per chain it runs:

```js
let prevHash = '0'.repeat(64);
let errors = [];
for (const event of chain.events) {
  if (event.prev_hash !== prevHash) {
    errors.push(`Event seq=${event.seq}: prev_hash mismatch`);
  }
  prevHash = event.event_hash;
}
... is_valid: errors.length === 0 ...
```

The exported event records carry
`seq, event_type, sentiment, is_liability_event, payload, prev_hash,
event_hash, payload_canonical_hash, created_at`. -/

structure V2Event where
  seq : Nat
  event_type : String
  sentiment : Option String
  is_liability_event : Bool
  payload : Json
  prev_hash : String
  event_hash : String
  payload_canonical_hash : String
  created_at : String

/-- The error lines the loop accumulates, starting from `prevHash`. -/
def integrityErrors : String → List V2Event → List String
  | _, [] => []
  | prevHash, e :: rest =>
    (if e.prev_hash ≠ prevHash then ["Event seq=" ++ toString e.seq ++ ": prev_hash mismatch"]
     else []) ++ integrityErrors e.event_hash rest

/-- The per-chain integrity result: `(is_valid, errors)`. -/
def integrityResult (events : List V2Event) : Bool × List String :=
  let errors := integrityErrors GENESIS events
  (errors.isEmpty, errors)

/-- The linkage loop of `run-demo-v2.js` ACT 4 (lines 302–308): same walk,
but it stops at the first mismatch and yields only a boolean. -/
def v2LinkageValid : String → List V2Event → Bool
  | _, [] => true
  | expectedPrev, e :: rest =>
    if e.prev_hash ≠ expectedPrev then false else v2LinkageValid e.event_hash rest

/-! ## Linkage predicates and concrete inputs -/

/-- `linkedFrom prev events`: the first event's `prev_hash` is `prev` and
each later event's `prev_hash` is its predecessor's `event_hash`. -/
def linkedFrom : String → List Event → Prop
  | _, [] => True
  | prev, e :: rest => e.prev_hash = prev ∧ linkedFrom e.event_hash rest

/-- The hash of the last event of the list, or `p` if the list is empty —
the value `append` must use as the new event's `prev_hash`. -/
def lastHash (p : String) : List Event → String
  | [] => p
  | e :: rest => lastHash e.event_hash rest

/-- The record `append` hashed, reconstructed from the stored event's own
fields. -/
def eventHashInput (e : Event) : Json :=
  appendHashRecord e.sequence e.event_type e.agent_name e.timestamp e.payload e.prev_hash

/-- An already-resolved (empty) chain, for exercising `append` after
`resolve`. -/
def resolvedEmpty : Chain := ((Chain.new "demo").resolve).1

/-- The spec's concrete three-event scenario, built through `Chain.append`:
`created` with payload `\x7b\x7d`, then two `updated` events. -/
def step1 : Chain × Event :=
  (Chain.new "cve-2026-4821-remediation").append "created" "agent-a" "org-x"
    (.obj []) {} "2026-02-10T09:00:00.000Z"

def step2 : Chain × Event :=
  step1.1.append "updated" "agent-a" "org-x" (.obj [("x", .num 1)]) {} "2026-02-10T09:01:00.000Z"

def step3 : Chain × Event :=
  step2.1.append "updated" "agent-b" "org-x" (.obj [("y", .num 2)]) {} "2026-02-10T09:02:00.000Z"

def chain3 : Chain := step3.1

def chain3r : Chain := (chain3.resolve).1

/-- The exported chain artifact for the three-event chain. -/
def art3 : ChainArtifact :=
  { chain_id := chain3r.id, status := chain3r.status, chain_hash := chain3r.chainHash,
    event_count := chain3r.events.length, events := chain3r.events }

/-- A certificate whose `chain_hash` does not match the exported chain —
e.g. issued after the chain's stored aggregate hash was tampered with. Its
signature is assumed valid over its own (tampered) data, which is exactly
what a properly signed certificate for the wrong chain hash looks like. -/
def certBad : Certificate :=
  { version := "1.0", chain_id := chain3r.id, chain_hash := some GENESIS,
    event_count := chain3r.events.length, issued_at := "2026-02-10T09:03:00.000Z",
    issuer := "OpenExecution Sovereign", algorithm := "Ed25519",
    signature := "00ff", public_key := "ab01" }

/-- Event 2 of the scenario with its payload mutated in storage (hashes
left untouched). -/
def evMut2 : Event := { step2.2 with payload := .obj [("x", .num 99)] }

/-- Conversion of a `Chain` event to the exporter's record shape, with
`payload_canonical_hash` as the platform computes it (see run-demo-v2.js
ACT 5: `sha256(canonicalize(payload))`). -/
def v2FromEvent (e : Event) : V2Event :=
  { seq := e.sequence, event_type := e.event_type, sentiment := none,
    is_liability_event := false, payload := e.payload, prev_hash := e.prev_hash,
    event_hash := e.event_hash, payload_canonical_hash := sha256Hex (canonicalize e.payload),
    created_at := e.timestamp }

/-- The exported event list after the storage-level mutation of event 2's
payload. -/
def v2Mutated : List V2Event := [v2FromEvent step1.2, v2FromEvent evMut2, v2FromEvent step3.2]

/-- An Ed25519 implementation witness in which verification fails; only
used where the signature outcome is irrelevant. -/
def edNull : Ed := { sign := fun _ _ => "", verify := fun _ _ _ => false }

/-- An Ed25519 implementation whose verification outcome is determined by
which public key is supplied: it accepts exactly the key object "K1". -/
def edKeyed : Ed := { sign := fun _ _ => "", verify := fun pub _ _ => pub == "K1" }

/-- An issuer holding key object "K1" (exported hex "K1HEX"). -/
def issK1 : CertIssuer := { pub := "K1", priv := "P1", pubHex := "K1HEX" }

/-- A certificate carrying an embedded public key "K2" that is NOT the
verifying issuer's key. -/
def certK2 : Certificate :=
  { version := "1.0", chain_id := "chain-7", chain_hash := some "aa11",
    event_count := 1, issued_at := "2026-02-10T10:00:00.000Z",
    issuer := "OpenExecution Sovereign", algorithm := "Ed25519",
    signature := "sig0", public_key := "K2" }

/-! ## Lemmas about the serializer -/

theorem one_le_jsonSize (j : Json) : 1 ≤ jsonSize j := by
  cases j <;> simp [jsonSize]

theorem jsonSize_lt_of_mem {x : Json} {xs : List Json} (h : x ∈ xs) : jsonSize x < jsonSizeL xs := by
  induction xs with
  | nil => cases h
  | cons y ys ih =>
    rcases List.mem_cons.mp h with rfl | h'
    · simp [jsonSizeL]; omega
    · have := ih h'; simp [jsonSizeL]; omega

theorem jsonSize_lookupJ (k : String) (l : List (String × Json)) :
    jsonSize (lookupJ k l) < jsonSizeP l + 1 := by
  induction l with
  | nil => simp [lookupJ, jsonSize, jsonSizeP]
  | cons kv rest ih =>
    obtain ⟨k', v⟩ := kv
    simp only [lookupJ, jsonSizeP]
    split
    · omega
    · omega

/-- `canonAux` does not depend on the fuel once the fuel is at least the
value's size. -/
theorem canonAux_fuel (f₁ : Nat) : ∀ (f₂ : Nat) (j : Json), jsonSize j ≤ f₁ → jsonSize j ≤ f₂ →
    canonAux f₁ j = canonAux f₂ j := by
  induction f₁ with
  | zero =>
    intro f₂ j h₁ _
    exact absurd h₁ (by have := one_le_jsonSize j; omega)
  | succ n ih =>
    intro f₂ j h₁ h₂
    cases f₂ with
    | zero => exact absurd h₂ (by have := one_le_jsonSize j; omega)
    | succ m =>
      cases j with
      | null => rfl
      | bool b => cases b <;> rfl
      | num v => rfl
      | str s => rfl
      | arr xs =>
        simp only [canonAux]
        have hmap : xs.map (canonAux n) = xs.map (canonAux m) := by
          apply List.map_congr_left
          intro x hx
          have ht := jsonSize_lt_of_mem hx
          simp only [jsonSize] at h₁ h₂
          exact ih m x (by omega) (by omega)
        rw [hmap]
      | obj l =>
        simp only [canonAux]
        have hfun : (fun k => jsonStr k ++ ":" ++ canonAux n (lookupJ k l))
            = fun k => jsonStr k ++ ":" ++ canonAux m (lookupJ k l) := by
          funext k
          have ht := jsonSize_lookupJ k l
          simp only [jsonSize] at h₁ h₂
          rw [ih m (lookupJ k l) (by omega) (by omega)]
        rw [hfun]

/-- Unfolding of the serializer on arrays: element order is preserved. -/
theorem canonicalize_arr (xs : List Json) :
    canonicalize (.arr xs) = "[" ++ String.intercalate "," (xs.map canonicalize) ++ "]" := by
  show canonAux (jsonSizeL xs + 1) (.arr xs) = _
  simp only [canonAux]
  have hmap : xs.map (canonAux (jsonSizeL xs)) = xs.map canonicalize :=
    List.map_congr_left fun x hx =>
      canonAux_fuel _ _ x (le_of_lt (jsonSize_lt_of_mem hx)) le_rfl
  rw [hmap]

/-- Unfolding of the serializer on objects: keys sorted, values looked up. -/
theorem canonicalize_obj (l : List (String × Json)) :
    canonicalize (.obj l) = "\x7b" ++ String.intercalate ","
      ((sortKeys (l.map Prod.fst)).map
        (fun k => jsonStr k ++ ":" ++ canonicalize (lookupJ k l))) ++ "\x7d" := by
  show canonAux (jsonSizeP l + 1) (.obj l) = _
  simp only [canonAux]
  have hfun : (fun k => jsonStr k ++ ":" ++ canonAux (jsonSizeP l) (lookupJ k l))
      = fun k => jsonStr k ++ ":" ++ canonicalize (lookupJ k l) := by
    funext k
    rw [canonAux_fuel _ _ (lookupJ k l) (by have := jsonSize_lookupJ k l; omega) le_rfl]
    rfl
  rw [hfun]

/-! ### The key order is a total, transitive, antisymmetric relation -/

theorem lexLe_total : ∀ as bs : List Char, lexLe as bs = true ∨ lexLe bs as = true := by
  intro as
  induction as with
  | nil => intro bs; left; rfl
  | cons a as ih =>
    intro bs
    cases bs with
    | nil => right; rfl
    | cons b bs =>
      simp only [lexLe]
      rcases Nat.lt_trichotomy a.toNat b.toNat with h | h | h
      · left; simp [h]
      · have h1 : ¬ a.toNat < b.toNat := by omega
        have h2 : ¬ b.toNat < a.toNat := by omega
        rcases ih bs with h' | h' <;> [left; right] <;> simp [h1, h2, h']
      · right; simp [h]

theorem lexLe_trans : ∀ as bs cs : List Char,
    lexLe as bs = true → lexLe bs cs = true → lexLe as cs = true := by
  intro as
  induction as with
  | nil => intro bs cs _ _; rfl
  | cons a as ih =>
    intro bs cs h₁ h₂
    cases bs with
    | nil => simp [lexLe] at h₁
    | cons b bs =>
      cases cs with
      | nil => simp [lexLe] at h₂
      | cons c cs =>
        simp only [lexLe] at h₁ h₂ ⊢
        by_cases hab : a.toNat < b.toNat
        · by_cases hbc : b.toNat < c.toNat
          · have hac : a.toNat < c.toNat := by omega
            simp [hac]
          · by_cases hcb : c.toNat < b.toNat
            · simp [hbc, hcb] at h₂
            · have hac : a.toNat < c.toNat := by omega
              simp [hac]
        · by_cases hba : b.toNat < a.toNat
          · simp [hab, hba] at h₁
          · by_cases hbc : b.toNat < c.toNat
            · have hac : a.toNat < c.toNat := by omega
              simp [hac]
            · by_cases hcb : c.toNat < b.toNat
              · simp [hbc, hcb] at h₂
              · have hac : ¬ a.toNat < c.toNat := by omega
                have hca : ¬ c.toNat < a.toNat := by omega
                simp [hab, hba] at h₁
                simp [hbc, hcb] at h₂
                simp [hac, hca]
                exact ih bs cs h₁ h₂

theorem lexLe_antisymm : ∀ as bs : List Char,
    lexLe as bs = true → lexLe bs as = true → as = bs := by
  intro as
  induction as with
  | nil =>
    intro bs _ h₂
    cases bs with
    | nil => rfl
    | cons b bs => simp [lexLe] at h₂
  | cons a as ih =>
    intro bs h₁ h₂
    cases bs with
    | nil => simp [lexLe] at h₁
    | cons b bs =>
      simp only [lexLe] at h₁ h₂
      by_cases hab : a.toNat < b.toNat <;> by_cases hba : b.toNat < a.toNat <;>
        simp [hab, hba] at h₁ h₂
      · omega
      · have hn : a.toNat = b.toNat := by omega
        have hc : a = b := by
          have := congrArg Char.ofNat hn
          rwa [Char.ofNat_toNat, Char.ofNat_toNat] at this
        rw [hc, ih bs h₁ h₂]

instance : IsTotal String KeyLe :=
  ⟨fun a b => lexLe_total a.data b.data⟩

instance : IsTrans String KeyLe :=
  ⟨fun a b c h₁ h₂ => lexLe_trans a.data b.data c.data h₁ h₂⟩

instance : IsAntisymm String KeyLe := by
  constructor
  intro a b h₁ h₂
  have h := lexLe_antisymm a.data b.data h₁ h₂
  cases a
  cases b
  rw [show ∀ l : List Char, (String.mk l).data = l from fun _ => rfl,
      show ∀ l : List Char, (String.mk l).data = l from fun _ => rfl] at h
  rw [h]

theorem sortKeys_sorted (keys : List String) : List.Sorted KeyLe (sortKeys keys) :=
  List.sorted_insertionSort KeyLe keys

theorem sortKeys_perm (keys : List String) : (sortKeys keys).Perm keys :=
  List.perm_insertionSort KeyLe keys

/-- Sorting is determined by the multiset of keys. -/
theorem sortKeys_eq_of_perm {k₁ k₂ : List String} (p : k₁.Perm k₂) : sortKeys k₁ = sortKeys k₂ :=
  List.eq_of_perm_of_sorted ((sortKeys_perm k₁).trans (p.trans (sortKeys_perm k₂).symm))
    (sortKeys_sorted k₁) (sortKeys_sorted k₂)

/-- Key lookup is invariant under permutation of an association list whose
keys are distinct. -/
theorem lookupJ_perm {l₁ l₂ : List (String × Json)} (p : l₁.Perm l₂)
    (nd : (l₁.map Prod.fst).Nodup) (k : String) : lookupJ k l₁ = lookupJ k l₂ := by
  induction p with
  | nil => rfl
  | cons x p ih =>
    obtain ⟨kx, vx⟩ := x
    simp only [List.map_cons, List.nodup_cons] at nd
    simp only [lookupJ]
    by_cases hk : kx = k
    · rw [if_pos hk, if_pos hk]
    · rw [if_neg hk, if_neg hk]
      exact ih nd.2
  | swap x y l =>
    obtain ⟨kx, vx⟩ := x
    obtain ⟨ky, vy⟩ := y
    simp only [lookupJ]
    by_cases h1 : ky = k <;> by_cases h2 : kx = k <;> simp [h1, h2]
    subst h1
    subst h2
    simp at nd
  | trans p₁ p₂ ih₁ ih₂ =>
    have nd₂ := ((p₁.map Prod.fst).nodup_iff).mp nd
    exact (ih₁ nd).trans (ih₂ nd₂)

/-- Serialization of a mapping is invariant under permutation of its
entries, provided its keys are distinct. -/
theorem canonicalize_obj_perm {l₁ l₂ : List (String × Json)}
    (nd : (l₁.map Prod.fst).Nodup) (p : l₁.Perm l₂) :
    canonicalize (.obj l₁) = canonicalize (.obj l₂) := by
  rw [canonicalize_obj, canonicalize_obj]
  have hk : sortKeys (l₁.map Prod.fst) = sortKeys (l₂.map Prod.fst) :=
    sortKeys_eq_of_perm (p.map Prod.fst)
  have hfun : (fun k => jsonStr k ++ ":" ++ canonicalize (lookupJ k l₁))
      = fun k => jsonStr k ++ ":" ++ canonicalize (lookupJ k l₂) := by
    funext k
    rw [lookupJ_perm p nd k]
  rw [hk, hfun]

/-! ## Lemmas about the hash chain -/

theorem dropLast_cons2 {α : Type} (a b : α) (l : List α) :
    (a :: b :: l).dropLast = a :: (b :: l).dropLast := rfl

theorem get?_lastHash : ∀ (l : List Event) (e : Event),
    (match (e :: l).get? l.length with
      | some x => x.event_hash
      | none => "") = lastHash e.event_hash l := by
  intro l
  induction l with
  | nil => intro e; rfl
  | cons f rest ih =>
    intro e
    show (match (f :: rest).get? rest.length with
      | some x => x.event_hash
      | none => "") = _
    rw [ih f]
    rfl

/-- The `prev` value `append` computes is the hash of the last stored
event (or `GENESIS` on an empty chain). -/
theorem appendPrev_eq (c : Chain) : appendPrev c = lastHash GENESIS c.events := by
  show (if c.events.length + 1 = 1 then GENESIS else
    match c.events.get? (c.events.length + 1 - 2) with
    | some e => e.event_hash
    | none => "") = lastHash GENESIS c.events
  cases h : c.events with
  | nil => rfl
  | cons e rest =>
    have hc : ¬ (e :: rest).length + 1 = 1 := by simp
    rw [if_neg hc]
    show (match (e :: rest).get? rest.length with
      | some x => x.event_hash
      | none => "") = _
    rw [get?_lastHash rest e]
    rfl

/-- The event returned by `append` points at the previous last hash. -/
theorem append_event_prev (c : Chain) (type agent org : String) (payload : Json)
    (opts : AppendOpts) (ts : String) :
    ((c.append type agent org payload opts ts).2).prev_hash = lastHash GENESIS c.events :=
  appendPrev_eq c

/-- Appending one linked event keeps the list linked. -/
theorem linkedFrom_append : ∀ (l : List Event) (p : String) (e : Event),
    linkedFrom p l → e.prev_hash = lastHash p l → linkedFrom p (l ++ [e]) := by
  intro l
  induction l with
  | nil =>
    intro p e _ he
    exact ⟨he, trivial⟩
  | cons f rest ih =>
    intro p e hl he
    exact ⟨hl.1, ih f.event_hash e hl.2 he⟩

/-- Every chain built by a sequence of `append` calls is hash-linked from
`GENESIS`. -/
theorem buildChain_linked (id : String) (ops : List AppendArgs) :
    linkedFrom GENESIS (buildChain id ops).events := by
  have h : ∀ (ops : List AppendArgs) (c : Chain), linkedFrom GENESIS c.events →
      linkedFrom GENESIS
        ((ops.foldl (fun c op => (c.append op.type op.agent op.org op.payload op.opts op.ts).1)
          c).events) := by
    intro ops
    induction ops with
    | nil => intro c h; exact h
    | cons op rest ih =>
      intro c h
      apply ih
      exact linkedFrom_append c.events GENESIS _ h (append_event_prev c _ _ _ _ _ _)
  exact h ops (Chain.new id) trivial

/-- The positional form of the linkage: the `prev_hash` column is `GENESIS`
followed by the `event_hash` column, shifted by one. -/
theorem linkedFrom_maps : ∀ (l : List Event) (p : String), linkedFrom p l →
    l.map (·.prev_hash) = (p :: l.map (·.event_hash)).dropLast := by
  intro l
  induction l with
  | nil => intro p _; rfl
  | cons e rest ih =>
    intro p hl
    simp only [List.map_cons]
    rw [dropLast_cons2, hl.1, ih e.event_hash hl.2]

/-! ## Lemmas about the exporter's integrity check -/

/-- The integrity walk never reads payloads: mutating any payload in
storage leaves its output unchanged. -/
theorem integrityErrors_payload (f : Json → Json) : ∀ (l : List V2Event) (p : String),
    integrityErrors p (l.map fun e => { e with payload := f e.payload }) =
      integrityErrors p l := by
  intro l
  induction l with
  | nil => intro p; rfl
  | cons e rest ih =>
    intro p
    show (if e.prev_hash ≠ p then ["Event seq=" ++ toString e.seq ++ ": prev_hash mismatch"]
      else []) ++ integrityErrors e.event_hash (rest.map fun e => { e with payload := f e.payload })
      = _
    rw [ih e.event_hash]
    rfl

/-- The walk reports no error exactly when the `prev_hash` linkage holds. -/
theorem integrityErrors_nil_iff : ∀ (l : List V2Event) (p : String),
    integrityErrors p l = [] ↔
      l.map (·.prev_hash) = (p :: l.map (·.event_hash)).dropLast := by
  intro l
  induction l with
  | nil => intro p; simp [integrityErrors]
  | cons e rest ih =>
    intro p
    simp only [List.map_cons, dropLast_cons2, integrityErrors]
    by_cases hp : e.prev_hash = p
    · simp [hp, ih e.event_hash]
    · simp [hp]

/-! ## The claims -/

set_option maxRecDepth 200000
set_option maxHeartbeats 4000000

/-- Claim C1, counterexample: after one `append` on a fresh chain, the
stored `event_hash` differs from the SHA-256 of the canonicalization of
all of the event's fields except `event_hash` — the source hashes only
`seq, event_type, agent_name, timestamp, payload, prev_hash`, leaving
`organization` (and any authorization metadata) out of the hashed
record, and stores the sequence number under a different key. -/
theorem claim_C1_counterexample :
    step1.2.event_hash ≠ sha256Hex (canonicalize (eventJsonSansHash step1.2)) := by decide

/-- Claim C1, amended: for every event returned by `Chain.append`, the
stored `event_hash` equals the SHA-256 of the canonical serialization of
the record `seq, event_type, agent_name, timestamp, payload, prev_hash`
rebuilt from the event's own stored fields; `organization` and the
authorization metadata are not part of the hashed record. -/
theorem claim_C1 (c : Chain) (type agent org : String) (payload : Json)
    (opts : AppendOpts) (ts : String) :
    ((c.append type agent org payload opts ts).2).event_hash
      = sha256Hex (canonicalize (eventHashInput ((c.append type agent org payload opts ts).2))) := by
  dsimp only [Chain.append, eventHashInput, appendHashRecord]

/-- Claim C2, counterexample: `append` on a resolved chain does not fail
and does not leave the event list unchanged — the source has no status
check and no ChainClosedError; the appended event lands in the list. -/
theorem claim_C2_counterexample :
    resolvedEmpty.status = "resolved" ∧
      (resolvedEmpty.append "doc" "agent-a" "org-x" (Json.obj []) {}
        "2026-02-10T09:05:00.000Z").1.events.length = 1 ∧
      resolvedEmpty.events.length = 0 ∧
      (resolvedEmpty.append "doc" "agent-a" "org-x" (Json.obj []) {}
        "2026-02-10T09:05:00.000Z").1.events ≠ resolvedEmpty.events :=
  ⟨rfl, rfl, rfl, fun h => absurd (congrArg List.length h) (by decide)⟩

/-- Claim C2, amended: `Chain.append` performs no status check — on a
chain whose status is `resolved` it succeeds, appends the new event to the
event list, and leaves the status `resolved`. -/
theorem claim_C2 (c : Chain) (type agent org : String) (payload : Json)
    (opts : AppendOpts) (ts : String) (h : c.status = "resolved") :
    (c.append type agent org payload opts ts).1.events
        = c.events ++ [(c.append type agent org payload opts ts).2] ∧
      (c.append type agent org payload opts ts).1.status = "resolved" :=
  ⟨rfl, h⟩

/-- Claim C2, witness: the amended claim at a concrete resolved chain. -/
theorem claim_C2_witness :
    resolvedEmpty.status = "resolved" ∧
      (resolvedEmpty.append "doc" "agent-a" "org-x" (Json.obj []) {}
          "2026-02-10T09:05:00.000Z").1.events
        = resolvedEmpty.events
          ++ [(resolvedEmpty.append "doc" "agent-a" "org-x" (Json.obj []) {}
            "2026-02-10T09:05:00.000Z").2] :=
  ⟨rfl, (claim_C2 resolvedEmpty "doc" "agent-a" "org-x" (Json.obj []) {}
    "2026-02-10T09:05:00.000Z" rfl).1⟩

/-- Claim C3, code bug: on artifacts whose hash-chain linkage is intact
and whose certificate signature is valid, but whose certificate
`chain_hash` does not match the recomputed aggregate hash, the emitted
`verify.js` prints the chain-hash check as failed yet still reports the
overall verdict ALL CHECKS PASSED — its final verdict is
`chainOk && sigValid` and omits the chain-hash comparison. -/
theorem claim_C3_bug :
    (verifyScriptRun (fun _ _ _ => true) art3 certBad "ab01").chainOk = true ∧
      (verifyScriptRun (fun _ _ _ => true) art3 certBad "ab01").hashMatch = false ∧
      (verifyScriptRun (fun _ _ _ => true) art3 certBad "ab01").sigValid = true ∧
      (verifyScriptRun (fun _ _ _ => true) art3 certBad "ab01").allChecksPassed = true := by
  decide

/-- Claim C4, counterexample: `CertIssuer.verify` accepts a certificate
whose embedded public key the Ed25519 check would reject — the source
verifies against the issuer's own key object `this.pub`, not against
`cert.public_key`, so the result is not determined by the embedded key. -/
theorem claim_C4_counterexample :
    CertIssuer.verify edKeyed issK1 certK2 = true ∧
      edKeyed.verify certK2.public_key (canonicalize (.obj (certDataOf certK2)))
        certK2.signature = false :=
  ⟨rfl, rfl⟩

/-- Claim C4, amended: `verify(certificate)` checks the signature over the
canonicalization of the certificate's fields excluding `signature` and
`public_key`, but against the verifying issuer's own public key; the
embedded `public_key` field is ignored — replacing it never changes the
result. -/
theorem claim_C4 (ed : Ed) (iss : CertIssuer) (cert : Certificate) (k : String) :
    CertIssuer.verify ed iss cert
        = ed.verify iss.pub (canonicalize (.obj (certDataOf cert))) cert.signature ∧
      CertIssuer.verify ed iss { cert with public_key := k } = CertIssuer.verify ed iss cert :=
  ⟨rfl, rfl⟩

/-- Claim C5: `canonicalize` is invariant under any permutation of a
mapping's key insertion order (keys pairwise distinct, values arbitrary
nested values); sequences are serialized in element order; and object
encoding sorts the keys before encoding, looking each key up uniformly. -/
theorem claim_C5 :
    (∀ l₁ l₂ : List (String × Json), (l₁.map Prod.fst).Nodup → l₁.Perm l₂ →
        canonicalize (.obj l₁) = canonicalize (.obj l₂)) ∧
      (∀ xs : List Json,
        canonicalize (.arr xs) = "[" ++ String.intercalate "," (xs.map canonicalize) ++ "]") ∧
      ∀ l : List (String × Json),
        canonicalize (.obj l) = "\x7b" ++ String.intercalate ","
          ((sortKeys (l.map Prod.fst)).map
            (fun k => jsonStr k ++ ":" ++ canonicalize (lookupJ k l))) ++ "\x7d" :=
  ⟨fun _ _ nd p => canonicalize_obj_perm nd p, canonicalize_arr, canonicalize_obj⟩

/-- Claim C5, witness: a two-key mapping serialized identically under both
insertion orders. -/
theorem claim_C5_witness :
    ([("b", Json.num 1), ("a", Json.str "x")].map Prod.fst).Nodup ∧
      canonicalize (.obj [("b", Json.num 1), ("a", Json.str "x")])
        = canonicalize (.obj [("a", Json.str "x"), ("b", Json.num 1)]) :=
  ⟨by decide, claim_C5.1 _ _ (by decide) (List.Perm.swap _ _ _)⟩

/-- Claim C6, counterexample: mutating event 2's payload in storage
(hashes untouched) on a genuinely appended three-event chain leaves the
exporter's integrity check reporting `is_valid = true` with no error —
the check never recomputes `event_hash` from the canonicalized fields,
although the stored hash of the mutated event no longer matches that
recomputation. -/
theorem claim_C6_counterexample :
    (integrityResult v2Mutated).1 = true ∧ (integrityResult v2Mutated).2 = [] ∧
      evMut2.event_hash ≠ sha256Hex (canonicalize (eventHashInput evMut2)) := by
  decide

/-- Claim C6, amended: the exporter's chain-integrity check validates only
the `prev_hash` linkage: it reports valid exactly when the `prev_hash`
column equals `GENESIS` followed by the shifted `event_hash` column
(collecting one error line per mismatching event, not stopping at the
first), and its output is invariant under any mutation of the stored
payloads. -/
theorem claim_C6 (evs : List V2Event) :
    ((integrityResult evs).1 = true ↔
        evs.map (·.prev_hash) = (GENESIS :: evs.map (·.event_hash)).dropLast) ∧
      ∀ f : Json → Json,
        integrityResult (evs.map fun e => { e with payload := f e.payload })
          = integrityResult evs := by
  constructor
  · rw [show (integrityResult evs).1 = (integrityErrors GENESIS evs).isEmpty from rfl,
      List.isEmpty_iff]
    exact integrityErrors_nil_iff evs GENESIS
  · intro f
    show ((integrityErrors GENESIS (evs.map fun e => { e with payload := f e.payload })).isEmpty,
        integrityErrors GENESIS (evs.map fun e => { e with payload := f e.payload }))
      = ((integrityErrors GENESIS evs).isEmpty, integrityErrors GENESIS evs)
    rw [integrityErrors_payload f evs GENESIS]

/-- Claim C7: `resolve` sets `chain_hash` to the SHA-256 of the event
hashes joined with ":" in sequence order, sets the status to resolved,
returns that hash, and the hash is computed at no earlier point — a fresh
chain has `chain_hash = null` and `append` never touches it. -/
theorem claim_C7 (c : Chain) (id type agent org : String) (payload : Json)
    (opts : AppendOpts) (ts : String) :
    (c.resolve).2 = sha256Hex (String.intercalate ":" (c.events.map (·.event_hash))) ∧
      (c.resolve).1.chainHash = some ((c.resolve).2) ∧
      (c.resolve).1.status = "resolved" ∧
      (c.resolve).1.events = c.events ∧
      (Chain.new id).chainHash = none ∧
      ((c.append type agent org payload opts ts).1).chainHash = c.chainHash :=
  ⟨rfl, rfl, rfl, rfl, rfl, rfl⟩

/-- Claim C8: for every chain built by any sequence of `append` calls, the
`prev_hash` column equals `GENESIS` followed by the `event_hash` column
shifted by one — the first event points at `GENESIS` and each later event
at its predecessor's hash — and `GENESIS` is exactly 64 ASCII '0'
characters. -/
theorem claim_C8 (id : String) (ops : List AppendArgs) :
    (buildChain id ops).events.map (·.prev_hash)
        = (GENESIS :: (buildChain id ops).events.map (·.event_hash)).dropLast ∧
      GENESIS.length = 64 ∧ GENESIS.data.all (· == '0') = true :=
  ⟨linkedFrom_maps _ GENESIS (buildChain_linked id ops), by decide, by decide⟩

/-- Claim C9, counterexample: `issue` on a chain whose status is active
does not fail — the source has no status check and no
ChainNotResolvedError; it builds a full certificate whose `chain_hash` is
the chain's unset (null) hash. -/
theorem claim_C9_counterexample :
    (Chain.new "c9").status = "active" ∧
      (CertIssuer.issue edNull issK1 (Chain.new "c9") "2026-02-10T09:06:00.000Z").chain_hash
        = none ∧
      (CertIssuer.issue edNull issK1 (Chain.new "c9") "2026-02-10T09:06:00.000Z").version
        = "1.0" ∧
      (CertIssuer.issue edNull issK1 (Chain.new "c9") "2026-02-10T09:06:00.000Z").event_count
        = 0 ∧
      (CertIssuer.issue edNull issK1 (Chain.new "c9") "2026-02-10T09:06:00.000Z").issuer
        = "OpenExecution Sovereign" :=
  ⟨rfl, rfl, rfl, rfl, rfl⟩

/-- Claim C9, amended: `CertIssuer.issue` performs no status check: for
any chain, whatever its status, it returns a certificate carrying the
chain's current `chain_hash` (null when unresolved) and event count,
signed over the canonicalized certificate data, with the issuer's
exported public key; the chain's status field never influences the
result. -/
theorem claim_C9 (ed : Ed) (iss : CertIssuer) (chain : Chain) (ts s : String) :
    (CertIssuer.issue ed iss chain ts).chain_hash = chain.chainHash ∧
      (CertIssuer.issue ed iss chain ts).event_count = chain.events.length ∧
      (CertIssuer.issue ed iss chain ts).signature
        = ed.sign iss.priv (canonicalize (.obj (issueData chain ts))) ∧
      (CertIssuer.issue ed iss chain ts).public_key = iss.pubHex ∧
      CertIssuer.issue ed iss { chain with status := s } ts = CertIssuer.issue ed iss chain ts :=
  ⟨rfl, rfl, rfl, rfl, rfl⟩

/-- Claim C10: `resolve` is total (it never raises), and resolving an
already-resolved chain with no intervening append returns the same
`chain_hash` and leaves the chain in the same state. -/
theorem claim_C10 (c : Chain) :
    ((c.resolve).1).resolve = ((c.resolve).1, (c.resolve).2) := rfl

end OpenExec
